import Mathlib

/-!
# Verification of the modelgrader core

Shallow embedding of the `modelgrader` Python package
(`src/modelgrader/models.py`, `gemini_grader.py`, `csv_writer.py`,
`__init__.py`, `test_runner.py`) together with proofs about the claims
of the specification.

Modelling conventions:
* Python `int` becomes `ℤ` (or `ℕ` where the source guarantees it),
  Python `float` becomes `ℚ` (exact idealisation of IEEE doubles; the
  quantities rounded here are far from any representation boundary).
* Python `round(x, n)` is banker's rounding (round half to even), embedded
  as `rndHE` below.
* Fallible code (regex extraction, `int()` / `float()` conversions,
  pydantic validation, exceptions) returns `Option`.
* The CSV file is a `List (List String)` of rows (first row = header), an
  absent file is `none : Option CsvFile`.  The `csv` module guarantees
  cell-level round-tripping, so quoting/escaping is below the level of
  this model.
-/

namespace Modelgrader

/-! ## Python rounding

`round(x, d)` in Python rounds half to even.  `rndHE q` is the nearest
integer to `q`, ties to even; `q.num / q.den` is the floor of `q`
(`Int` division rounds toward negative infinity for a positive
denominator). -/

/-- Round a rational to the nearest integer, half to even
(the semantics of Python's builtin `round`). -/
def rndHE (q : ℚ) : ℤ :=
  let f : ℤ := q.num / q.den
  let r : ℚ := q - (f : ℚ)
  if r < 1/2 then f
  else if 1/2 < r then f + 1
  else if f % 2 = 0 then f else f + 1

/-- `round(x, 1)` on a Python float, idealised over `ℚ`. -/
def pyRound1 (q : ℚ) : ℚ := (rndHE (q * 10) : ℚ) / 10

/-- `round(x, 2)` on a Python float, idealised over `ℚ`. -/
def pyRound2 (q : ℚ) : ℚ := (rndHE (q * 100) : ℚ) / 100

theorem rndHE_eq_floor_form (q : ℚ) :
    rndHE q =
      if q - (⌊q⌋ : ℚ) < 1/2 then ⌊q⌋
      else if 1/2 < q - (⌊q⌋ : ℚ) then ⌊q⌋ + 1
      else if ⌊q⌋ % 2 = 0 then ⌊q⌋ else ⌊q⌋ + 1 := by
  have h : q.num / q.den = ⌊q⌋ := Rat.floor_def.symm
  simp only [rndHE, h]

theorem rndHE_le_floor_add_one (q : ℚ) : rndHE q ≤ ⌊q⌋ + 1 := by
  rw [rndHE_eq_floor_form]
  split_ifs <;> omega

theorem floor_le_rndHE (q : ℚ) : ⌊q⌋ ≤ rndHE q := by
  rw [rndHE_eq_floor_form]
  split_ifs <;> omega

theorem rndHE_mono {a b : ℚ} (h : a ≤ b) : rndHE a ≤ rndHE b := by
  have hf : ⌊a⌋ ≤ ⌊b⌋ := Int.floor_mono h
  rcases lt_or_eq_of_le hf with hlt | heq
  · calc rndHE a ≤ ⌊a⌋ + 1 := rndHE_le_floor_add_one a
    _ ≤ ⌊b⌋ := by omega
    _ ≤ rndHE b := floor_le_rndHE b
  · have hfr : a - (⌊a⌋ : ℚ) ≤ b - (⌊b⌋ : ℚ) := by
      rw [← heq]; linarith
    rw [rndHE_eq_floor_form, rndHE_eq_floor_form, ← heq]
    split_ifs <;> first | omega | (exfalso; linarith)

theorem rndHE_intCast (z : ℤ) : rndHE (z : ℚ) = z := by
  rw [rndHE_eq_floor_form]
  have h : ⌊(z : ℚ)⌋ = z := Int.floor_intCast z
  rw [h]
  have : (z : ℚ) - (z : ℚ) = 0 := by ring
  rw [this]
  norm_num

theorem rndHE_nonneg {q : ℚ} (h : 0 ≤ q) : 0 ≤ rndHE q := by
  have := rndHE_mono h
  rwa [show rndHE 0 = 0 from rndHE_intCast 0] at this

/-! ## Data model (`models.py`)

`GradeBreakdown` and `TestResult` are pydantic models; their field
validators (`ge=0, le=100` on the three scores, `ge=0` on
`response_time`) run at construction time, so construction is embedded
as the fallible `mk?` smart constructors while the bare structures carry
the fields. -/

/-- `GradeBreakdown` (`models.py`): three integer scores and a free-text
explanation (default `""`). -/
structure GradeBreakdown where
  accuracy : ℤ
  completeness : ℤ
  clarity : ℤ
  explanation : String := ""
  deriving DecidableEq, Repr

/-- Constructing a pydantic `GradeBreakdown`: validation `0 ≤ s ≤ 100` on
each of the three scores; a failure raises `ValidationError` (`none`
here).  Any extra keyword argument (such as the `response_time_score`
passed by `gemini_grader._parse_grades` and `csv_writer.load_all_results`)
is ignored by pydantic's default `extra='ignore'` configuration and hence
does not appear here. -/
def GradeBreakdown.mk? (accuracy completeness clarity : ℤ)
    (explanation : String := "") : Option GradeBreakdown :=
  if 0 ≤ accuracy ∧ accuracy ≤ 100 ∧ 0 ≤ completeness ∧ completeness ≤ 100
      ∧ 0 ≤ clarity ∧ clarity ≤ 100 then
    some ⟨accuracy, completeness, clarity, explanation⟩
  else none

/-- `GradeBreakdown.weighted_score`:
`round(accuracy*0.5 + completeness*0.25 + clarity*0.25, 2)`. -/
def GradeBreakdown.weighted_score (g : GradeBreakdown) : ℚ :=
  pyRound2 ((g.accuracy : ℚ) * (1/2) + (g.completeness : ℚ) * (1/4)
    + (g.clarity : ℚ) * (1/4))

/-- `GradeBreakdown.total`, an alias for `weighted_score`. -/
def GradeBreakdown.total (g : GradeBreakdown) : ℚ := g.weighted_score

/-- `TestResult` (`models.py`). -/
structure TestResult where
  model_name : String
  question_number : ℤ
  question_text : String
  context_provided : Bool
  response : String
  response_time : ℚ
  grades : GradeBreakdown
  percentile : ℚ := 0
  deriving DecidableEq, Repr

/-- Constructing a pydantic `TestResult`: the only field validator is
`response_time: ge=0`; `grades` must itself be a valid `GradeBreakdown`,
which the caller supplies already constructed. -/
def TestResult.mk? (model_name : String) (question_number : ℤ)
    (question_text : String) (context_provided : Bool) (response : String)
    (response_time : ℚ) (grades : GradeBreakdown) (percentile : ℚ := 0) :
    Option TestResult :=
  if 0 ≤ response_time then
    some ⟨model_name, question_number, question_text, context_provided,
      response, response_time, grades, percentile⟩
  else none

/-- `TestResult.total_score = grades.total = grades.weighted_score`. -/
def TestResult.total_score (r : TestResult) : ℚ := r.grades.weighted_score

/-! ## Text utilities

Decimal rendering (`str(int)`, `str(float)` as written into the CSV) and
parsing (`int(..)`, `float(..)` as used when reading it back), plus the
character classes needed by the grade-parsing regex. -/

/-- ASCII decimal digit? -/
def isDigitC (c : Char) : Bool := 48 ≤ c.toNat ∧ c.toNat ≤ 57

/-- Value of a decimal digit character. -/
def digitVal (c : Char) : ℕ := c.toNat - 48

/-- The decimal digit character for `d < 10`. -/
def digitChar (d : ℕ) : Char := Char.ofNat (48 + d)

/-- Python's `\s` class (space, tab, newline, carriage return, vertical
tab, form feed) restricted to ASCII. -/
def isPySpace (c : Char) : Bool :=
  c = ' ' ∨ c = '\t' ∨ c = '\n' ∨ c = '\r' ∨ c.toNat = 11 ∨ c.toNat = 12

/-- Case folding for `re.IGNORECASE` over ASCII: the code of the
upper-cased character. -/
def upperCode (c : Char) : ℕ :=
  if 97 ≤ c.toNat ∧ c.toNat ≤ 122 then c.toNat - 32 else c.toNat

/-- Decimal digits of `n`, most significant first (fuelled so that the
definition is structural and kernel-reducible; `n + 1` units of fuel
always suffice). -/
def natDigitsAux : ℕ → ℕ → List Char
  | 0, _ => []
  | fuel + 1, n =>
    if n < 10 then [digitChar n]
    else natDigitsAux fuel (n / 10) ++ [digitChar (n % 10)]

/-- `str(n)` for a natural number. -/
def natDigits (n : ℕ) : List Char := natDigitsAux (n + 1) n

/-- `str(i)` for an integer. -/
def intRender (i : ℤ) : List Char :=
  if i < 0 then '-' :: natDigits i.natAbs else natDigits i.natAbs

/-- Numeric value of a digit list (horner evaluation, as `int` does). -/
def digitsToNat (ds : List Char) : ℕ :=
  ds.foldl (fun a c => 10 * a + digitVal c) 0

/-- Split a maximal leading run of decimal digits from a string. -/
def takeDigits : List Char → List Char × List Char
  | [] => ([], [])
  | c :: cs =>
    if isDigitC c then
      let p := takeDigits cs
      (c :: p.1, p.2)
    else ([], c :: cs)

/-- `int(s)` on a non-negative decimal string: all of `s` must be
digits, at least one.  (Python also accepts surrounding whitespace, a
`+` sign and `_` separators; none of those occur in strings this program
writes.) -/
def parseNatDigits (s : List Char) : Option ℕ :=
  let p := takeDigits s
  if p.1 ≠ [] ∧ p.2 = [] then some (digitsToNat p.1) else none

/-- `int(s)` with an optional leading minus sign. -/
def pyInt (s : List Char) : Option ℤ :=
  match s with
  | [] => none
  | c :: r =>
    if c = '-' then (parseNatDigits r).map (fun n => -(Int.ofNat n))
    else (parseNatDigits (c :: r)).map Int.ofNat

/-- `str(x)` for the float `x = rndHE (100*q) / 100` written into a CSV
cell: sign, integer part, a dot, two fractional digits.  This models the
rendering of a float rounded to at most two decimals (response time,
weighted score, percentile); the cell values that `load_all_results`
reparses are exactly of this shape. -/
def renderFloat (q : ℚ) : List Char :=
  let m : ℤ := rndHE (q * 100)
  (if m < 0 then ['-'] else []) ++ natDigits (m.natAbs / 100)
    ++ '.' :: [digitChar (m.natAbs / 10 % 10), digitChar (m.natAbs % 10)]

/-- `float(s)` on an unsigned decimal string `digits[.digits]`. -/
def parseFloatPos (s : List Char) : Option ℚ :=
  let p := takeDigits s
  if p.1 = [] then none
  else
    match p.2 with
    | [] => some (digitsToNat p.1 : ℚ)
    | '.' :: fr =>
      let f := takeDigits fr
      if f.2 = [] then
        some ((digitsToNat p.1 : ℚ) + (digitsToNat f.1 : ℚ) / 10 ^ f.1.length)
      else none
    | _ => none

/-- `float(s)` with an optional leading minus sign. -/
def parseFloat (s : List Char) : Option ℚ :=
  match s with
  | [] => none
  | c :: r =>
    if c = '-' then (parseFloatPos r).map Neg.neg
    else parseFloatPos (c :: r)

/-! ### Round-trip facts about the decimal renderers and parsers -/

theorem isDigitC_digitChar {d : ℕ} (h : d < 10) : isDigitC (digitChar d) = true := by
  interval_cases d <;> decide

theorem digitVal_digitChar {d : ℕ} (h : d < 10) : digitVal (digitChar d) = d := by
  interval_cases d <;> decide

theorem natDigitsAux_spec : ∀ fuel n, n < fuel →
    natDigitsAux fuel n ≠ [] ∧
    (∀ c ∈ natDigitsAux fuel n, isDigitC c = true) ∧
    ∀ a : ℕ, (natDigitsAux fuel n).foldl (fun a c => 10 * a + digitVal c) a
      = a * 10 ^ (natDigitsAux fuel n).length + n := by
  intro fuel
  induction fuel with
  | zero => intro n h; omega
  | succ fuel ih =>
    intro n h
    by_cases h10 : n < 10
    · refine ⟨by simp [natDigitsAux, h10], ?_, ?_⟩
      · intro c hc
        simp [natDigitsAux, h10] at hc
        subst hc
        exact isDigitC_digitChar h10
      · intro a
        simp [natDigitsAux, h10, List.foldl, digitVal_digitChar h10]
        ring
    · have hlt : n / 10 < fuel := by omega
      obtain ⟨hne, hdig, hval⟩ := ih (n / 10) hlt
      refine ⟨by simp [natDigitsAux, h10], ?_, ?_⟩
      · intro c hc
        simp only [natDigitsAux, if_neg h10, List.mem_append,
          List.mem_singleton] at hc
        rcases hc with hc | hc
        · exact hdig c hc
        · subst hc
          exact isDigitC_digitChar (by omega)
      · intro a
        simp only [natDigitsAux, if_neg h10, List.foldl_append, List.foldl,
          List.length_append, List.length_singleton, hval a,
          digitVal_digitChar (show n % 10 < 10 by omega)]
        rw [pow_succ, ← mul_assoc]
        generalize a * 10 ^ (natDigitsAux fuel (n / 10)).length = K
        omega

theorem natDigits_ne_nil (n : ℕ) : natDigits n ≠ [] :=
  (natDigitsAux_spec (n + 1) n (by omega)).1

theorem natDigits_all_digit (n : ℕ) : ∀ c ∈ natDigits n, isDigitC c = true :=
  (natDigitsAux_spec (n + 1) n (by omega)).2.1

theorem digitsToNat_natDigits (n : ℕ) : digitsToNat (natDigits n) = n := by
  have h := ((natDigitsAux_spec (n + 1) n (by omega)).2.2) 0
  simpa [digitsToNat, natDigits] using h

theorem takeDigits_all_digits {ds : List Char}
    (h : ∀ c ∈ ds, isDigitC c = true) : takeDigits ds = (ds, []) := by
  induction ds with
  | nil => rfl
  | cons c cs ih =>
    have hc : isDigitC c = true := h c (by simp)
    have hcs : takeDigits cs = (cs, []) := ih (fun x hx => h x (by simp [hx]))
    simp [takeDigits, hc, hcs]

theorem takeDigits_append_nondigit {ds rest : List Char} {r : Char}
    (h : ∀ c ∈ ds, isDigitC c = true) (hr : isDigitC r = false) :
    takeDigits (ds ++ r :: rest) = (ds, r :: rest) := by
  induction ds with
  | nil => simp [takeDigits, hr]
  | cons c cs ih =>
    have hc : isDigitC c = true := h c (by simp)
    have hcs := ih (fun x hx => h x (by simp [hx]))
    simp [takeDigits, hc, hcs]

theorem parseNatDigits_natDigits (n : ℕ) :
    parseNatDigits (natDigits n) = some n := by
  simp [parseNatDigits, takeDigits_all_digits (natDigits_all_digit n),
    natDigits_ne_nil n, digitsToNat_natDigits n]

theorem natDigits_head_not_neg (n : ℕ) {c : Char} {cs : List Char}
    (h : natDigits n = c :: cs) : c ≠ '-' := by
  intro hc
  have := natDigits_all_digit n c (by simp [h])
  subst hc
  simp [isDigitC] at this

theorem pyInt_intRender (i : ℤ) : pyInt (intRender i) = some i := by
  by_cases hneg : i < 0
  · rw [intRender, if_pos hneg]
    have h1 : pyInt ('-' :: natDigits i.natAbs)
        = (parseNatDigits (natDigits i.natAbs)).map (fun n => -(Int.ofNat n)) := by
      rw [pyInt]
      simp
    rw [h1, parseNatDigits_natDigits, Option.map_some']
    congr 1
    simp only [Int.ofNat_eq_natCast]
    omega
  · obtain ⟨c, cs, hcc⟩ := List.exists_cons_of_ne_nil (natDigits_ne_nil i.natAbs)
    rw [intRender, if_neg hneg, hcc]
    have h1 : pyInt (c :: cs) = (parseNatDigits (c :: cs)).map Int.ofNat := by
      rw [pyInt]
      simp [natDigits_head_not_neg i.natAbs hcc]
    rw [h1, ← hcc, parseNatDigits_natDigits, Option.map_some']
    congr 1
    simp only [Int.ofNat_eq_natCast]
    omega

theorem parseFloatPos_render (M : ℕ) :
    parseFloatPos (natDigits (M / 100)
      ++ '.' :: [digitChar (M / 10 % 10), digitChar (M % 10)])
      = some ((M : ℚ) / 100) := by
  have hdot : isDigitC '.' = false := by decide
  have htd := @takeDigits_append_nondigit (natDigits (M / 100))
    [digitChar (M / 10 % 10), digitChar (M % 10)] '.'
    (natDigits_all_digit (M / 100)) hdot
  have hfr : takeDigits [digitChar (M / 10 % 10), digitChar (M % 10)]
      = ([digitChar (M / 10 % 10), digitChar (M % 10)], []) := by
    refine takeDigits_all_digits ?_
    intro c hc
    simp only [List.mem_cons, List.not_mem_nil, or_false] at hc
    rcases hc with hc | hc <;> subst hc <;>
      exact isDigitC_digitChar (by omega)
  have hv2 : digitsToNat [digitChar (M / 10 % 10), digitChar (M % 10)]
      = 10 * (M / 10 % 10) + M % 10 := by
    simp [digitsToNat, List.foldl,
      digitVal_digitChar (show M / 10 % 10 < 10 by omega),
      digitVal_digitChar (show M % 10 < 10 by omega)]
  simp only [parseFloatPos, htd, hfr, digitsToNat_natDigits, hv2,
    List.length_cons, List.length_nil]
  rw [if_neg (natDigits_ne_nil (M / 100)), if_pos trivial]
  have h100 : ((10 : ℚ) ^ (0 + 1 + 1)) = 100 := by norm_num
  rw [h100]
  congr 1
  have hN : (M / 100) * 100 + (10 * (M / 10 % 10) + M % 10) = M := by omega
  have hQ : ((M / 100 : ℕ) : ℚ) * 100
      + (10 * ((M / 10 % 10 : ℕ) : ℚ) + ((M % 10 : ℕ) : ℚ)) = (M : ℚ) := by
    exact_mod_cast hN
  field_simp
  linarith [hQ]

theorem parseFloat_renderFloat (q : ℚ) :
    parseFloat (renderFloat q) = some ((rndHE (q * 100) : ℚ) / 100) := by
  rw [renderFloat]
  set m : ℤ := rndHE (q * 100) with hm
  by_cases hneg : m < 0
  · have h0 : (m.natAbs : ℤ) = -m := by omega
    have habs : ((m.natAbs : ℚ)) = -(m : ℚ) := by
      rw [Int.cast_natAbs, abs_of_neg hneg]
      push_cast
      ring
    rw [if_pos hneg, List.singleton_append, List.cons_append]
    have h1 : parseFloat ('-' :: (natDigits (m.natAbs / 100)
        ++ '.' :: [digitChar (m.natAbs / 10 % 10), digitChar (m.natAbs % 10)]))
        = (parseFloatPos (natDigits (m.natAbs / 100)
          ++ '.' :: [digitChar (m.natAbs / 10 % 10),
            digitChar (m.natAbs % 10)])).map Neg.neg := by
      rw [parseFloat]
      simp
    rw [h1, parseFloatPos_render, Option.map_some']
    rw [habs]
    congr 1
    ring
  · have h0 : (m.natAbs : ℤ) = m := by omega
    have habs : ((m.natAbs : ℚ)) = (m : ℚ) := by
      rw [Int.cast_natAbs, abs_of_nonneg (not_lt.mp hneg)]
    obtain ⟨c, cs, hcc⟩ :=
      List.exists_cons_of_ne_nil (natDigits_ne_nil (m.natAbs / 100))
    have hcne : c ≠ '-' := natDigits_head_not_neg _ hcc
    rw [if_neg hneg, List.nil_append, hcc, List.cons_append]
    have h1 : parseFloat (c :: (cs
        ++ '.' :: [digitChar (m.natAbs / 10 % 10), digitChar (m.natAbs % 10)]))
        = parseFloatPos (c :: (cs
          ++ '.' :: [digitChar (m.natAbs / 10 % 10),
            digitChar (m.natAbs % 10)])) := by
      rw [parseFloat]
      simp [hcne]
    rw [h1, ← List.cons_append, ← hcc, parseFloatPos_render]
    rw [habs]

/-! ## Grade parsing (`gemini_grader._parse_grades`)

`re.search(LABEL + r":\\s*(-?\\d+)", text, re.IGNORECASE)` scans the text
left to right and, at the first position where the case-insensitive label
and colon are followed by optional whitespace and a signed integer,
captures that integer (maximal digit run).  Backtracking cannot help this
pattern (shortening the greedy `\\s*` only re-exposes whitespace, which can
never match `-` or a digit), so the scan below is an exact embedding. -/

/-- Match `label` case-insensitively at the head of `text`, returning the
rest of the text. -/
def matchLabel : List Char → List Char → Option (List Char)
  | [], rest => some rest
  | _ :: _, [] => none
  | l :: ls, c :: cs =>
    if upperCode c = upperCode l then matchLabel ls cs else none

/-- Match `\\s*(-?\\d+)` at the head of `rest`, returning the captured
integer. -/
def matchNumAfter (rest : List Char) : Option ℤ :=
  let r := rest.dropWhile isPySpace
  match r with
  | '-' :: cs =>
    let p := takeDigits cs
    if p.1 = [] then none else some (-(Int.ofNat (digitsToNat p.1)))
  | cs =>
    let p := takeDigits cs
    if p.1 = [] then none else some (Int.ofNat (digitsToNat p.1))

/-- `re.search(label + r":\\s*(-?\\d+)", text, re.IGNORECASE)` (the colon
is part of `label` here): first match position wins. -/
def searchLabeledInt (label : List Char) : List Char → Option ℤ
  | [] => none
  | c :: cs =>
    match matchLabel label (c :: cs) with
    | some rest =>
      match matchNumAfter rest with
      | some v => some v
      | none => searchLabeledInt label cs
    | none => searchLabeledInt label cs

/-- Clamp an extracted score into `[0, 100]`
(`min(100, max(0, value))`). -/
def clampScore (v : ℤ) : ℤ := min 100 (max 0 v)

/-- `_parse_grades` (`gemini_grader.py`): requires ALL FOUR labels
`ACCURACY:`, `COMPLETENESS:`, `CLARITY:` and `RESPONSE_TIME:` to be
found (raising `ValueError`, i.e. `none`, otherwise), clamps each
extracted integer into `[0,100]`, and constructs
`GradeBreakdown(accuracy=.., completeness=.., clarity=..,
response_time_score=..)`.  The `response_time_score` keyword is not a
field of `GradeBreakdown` and pydantic ignores it; `explanation` is left
at its default `""` — the source contains no `_extract_explanation`
although the package's tests import one. -/
def parseGrades (grade_text : String) : Option GradeBreakdown := do
  let a ← searchLabeledInt "ACCURACY:".toList grade_text.toList
  let c ← searchLabeledInt "COMPLETENESS:".toList grade_text.toList
  let l ← searchLabeledInt "CLARITY:".toList grade_text.toList
  let _rt ← searchLabeledInt "RESPONSE_TIME:".toList grade_text.toList
  GradeBreakdown.mk? (clampScore a) (clampScore c) (clampScore l)

/-! ## CSV result store (`csv_writer.py`)

A CSV file is a list of rows (lists of cell strings); the first row is
the header.  `csv.DictWriter` writes cells in `CSV_FIELDNAMES` order and
`csv.DictReader` keys each data row by the file's own header row, which
is embedded as a `zip`-and-`lookup` dictionary.  (For rows shorter than
the header `DictReader` fills `None`, which every reader below feeds
into a failing conversion or string comparison; this model treats such
cells as absent, which likewise makes the surrounding reader fail.)
An absent or unreadable file is `none`. -/

/-- One CSV file: header row then data rows. -/
abbrev CsvFile := List (List String)

/-- `CSV_FIELDNAMES` (`csv_writer.py`). -/
def CSV_FIELDNAMES : List String :=
  ["Model Name", "Question", "Context Provided", "Accuracy Score",
   "Completeness Score", "Clarity Score", "Response time", "Weighted Score",
   "Percentile Rank", "Explanation"]

/-- `TestResult.to_csv_row` (`models.py`), as the list of cells in
`CSV_FIELDNAMES` order: question is rendered `Q<N>`, the context flag as
`Yes`/`No`, the three scores as integers, response time as
`round(.., 2)`, weighted score, percentile as `round(.., 1)`, then the
explanation. -/
def toCsvRow (r : TestResult) : List String :=
  [r.model_name,
   String.mk ('Q' :: intRender r.question_number),
   if r.context_provided then "Yes" else "No",
   String.mk (intRender r.grades.accuracy),
   String.mk (intRender r.grades.completeness),
   String.mk (intRender r.grades.clarity),
   String.mk (renderFloat (pyRound2 r.response_time)),
   String.mk (renderFloat r.total_score),
   String.mk (renderFloat (pyRound1 r.percentile)),
   r.grades.explanation]

/-- `csv.DictReader` row access `row[name]`. -/
def rowLookup (header cells : List String) (name : String) : Option String :=
  (header.zip cells).lookup name

/-- `initialize_csv`: create the file with only the header row if absent,
leave it untouched otherwise. -/
def initialize_csv (file : Option CsvFile) : Option CsvFile :=
  match file with
  | none => some [CSV_FIELDNAMES]
  | some c => some c

/-- `append_result_to_csv`: open in append mode (creating an empty file
if absent) and write the one row. -/
def append_result_to_csv (r : TestResult) (file : Option CsvFile) :
    Option CsvFile :=
  some ((match file with | none => [] | some c => c) ++ [toCsvRow r])

/-- `write_results_to_csv`: a no-op on an empty result list (the file is
neither created nor modified), otherwise a full rewrite: header plus one
row per result, in order. -/
def write_results_to_csv (results : List TestResult) (file : Option CsvFile) :
    Option CsvFile :=
  if results = [] then file
  else some (CSV_FIELDNAMES :: results.map toCsvRow)

/-- The identity-key part of one CSV row, as read by
`load_existing_results`: the model name, the question number recovered by
`int(row["Question"].replace("Q", ""))` (dropping every `Q`), and the
context flag `row["Context Provided"] == "Yes"`. -/
def parseKeyRow (header cells : List String) : Option (String × ℤ × Bool) := do
  let m ← rowLookup header cells "Model Name"
  let qCell ← rowLookup header cells "Question"
  let q ← pyInt (qCell.toList.filter (fun c => c ≠ 'Q'))
  let ctxCell ← rowLookup header cells "Context Provided"
  pure (m, q, ctxCell == "Yes")

/-- `load_existing_results`: the set of identity triples in the file;
an absent file, or any error while reading it, yields the empty set
(the `except` clause logs and returns `set()`). -/
def load_existing_results (file : Option CsvFile) :
    Finset (String × ℤ × Bool) :=
  match file with
  | none => ∅
  | some [] => ∅
  | some (h :: rows) =>
    match List.mapM' (parseKeyRow h) rows with
    | some ks => ks.toFinset
    | none => ∅

/-- The response-time-to-score step function recomputed by
`load_all_results` (its result is passed to `GradeBreakdown` as the
extra keyword `response_time_score`, which pydantic ignores). -/
def responseTimeScore (t : ℚ) : ℤ :=
  if t ≤ 10 then 95
  else if t ≤ 30 then 80
  else if t ≤ 60 then 60
  else if t ≤ 90 then 40
  else if t ≤ 120 then 20
  else 5

/-- `float(row.get("Percentile Rank", 0.0))`: the stored percentile cell
when the column exists, `0.0` otherwise. -/
def pctCellValue (cell? : Option String) : Option ℚ :=
  match cell? with
  | none => some 0
  | some s => parseFloat s.toList

/-- Reconstruct one `TestResult` from a CSV row (`load_all_results` loop
body): any failing conversion or failing pydantic validation raises, so
the row parse is fallible.  `question_text` and `response` are not
stored and come back empty; the explanation cell is not read back. -/
def parseResultRow (header cells : List String) : Option TestResult := do
  let rtCell ← rowLookup header cells "Response time"
  let response_time ← parseFloat rtCell.toList
  let _rts := responseTimeScore response_time
  let m ← rowLookup header cells "Model Name"
  let qCell ← rowLookup header cells "Question"
  let question_number ← pyInt (qCell.toList.filter (fun c => c ≠ 'Q'))
  let ctxCell ← rowLookup header cells "Context Provided"
  let aCell ← rowLookup header cells "Accuracy Score"
  let a ← pyInt aCell.toList
  let cCell ← rowLookup header cells "Completeness Score"
  let c ← pyInt cCell.toList
  let lCell ← rowLookup header cells "Clarity Score"
  let l ← pyInt lCell.toList
  let pct ← pctCellValue (rowLookup header cells "Percentile Rank")
  let grades ← GradeBreakdown.mk? a c l
  TestResult.mk? m question_number "" (ctxCell == "Yes") "" response_time
    grades pct

/-- `load_all_results`: every data row reconstructed in order; an absent
file yields `[]`, and any error while reading yields `[]` (the `except`
clause logs and returns `[]`). -/
def load_all_results (file : Option CsvFile) : List TestResult :=
  match file with
  | none => []
  | some [] => []
  | some (h :: rows) =>
    match List.mapM' (parseResultRow h) rows with
    | some rs => rs
    | none => []

/-! ## Percentile engine (`models.calculate_percentiles`)

The source sorts the (shared, mutable) result objects ascending by
weighted score with Python's stable `sorted`, writes
`round((i / (n-1)) * 100 if n > 1 else 50.0, 1)` into the object at rank
`i`, and returns the input list.  Since the embedding is immutable, the
function below returns the annotated population in sorted order — the
same multiset of records the Python function produces. -/

instance : DecidableRel (fun a b : TestResult => a.total_score ≤ b.total_score) :=
  fun a b => inferInstanceAs (Decidable (_ ≤ _))

/-- The percentile assigned to rank `i` (0-indexed) in a population of
size `n`. -/
def pctAt (n i : ℕ) : ℚ :=
  pyRound1 (if 1 < n then ((i : ℚ) / ((n : ℚ) - 1)) * 100 else 50)

/-- `calculate_percentiles` (`models.py`): stable-sort ascending by
weighted score and annotate rank `i` of `n` with `pctAt n i`; an empty
population is returned unchanged. -/
def calculate_percentiles (results : List TestResult) : List TestResult :=
  match results with
  | [] => []
  | _ :: _ =>
    let sorted := results.insertionSort
      (fun a b => a.total_score ≤ b.total_score)
    let n := sorted.length
    sorted.enum.map (fun p => { p.2 with percentile := pctAt n p.1 })

/-! ## Orchestrator (`__init__.main` and `test_runner.run_single_test`)

The external collaborators — the WatsonX query client, the Gemini
grading call and the prompt construction — are opaque functions per the
spec; `query` may fail (network/vendor error) and `gradeFn` may fail
(vendor error or `ValueError` from `_parse_grades`), both surfacing as
exceptions, i.e. `Except.error`.  The value produced by the embedded
`mainLoop` is the sequence of results appended to the CSV store (which
coincides with the in-memory `all_results` accumulator). -/

/-- A question as loaded by `load_questions`: number, text, and the
context text that `load_context()` would return (`""` if absent). -/
structure PyQuestion where
  number : ℤ
  text : String
  contextText : String
  deriving DecidableEq, Repr

section Orchestrator

variable (query : String → String → Except String (String × ℚ))
variable (gradeFn : String → String → Option String → ℚ → Except String GradeBreakdown)
variable (prompt : String → Option String → String)

/-- `run_single_test` (`test_runner.py`): load the context when asked,
build the prompt, query the model, grade the response, and assemble the
pydantic `TestResult` (whose validation may itself raise). -/
def run_single_test (modelId : String) (q : PyQuestion)
    (withContext : Bool) : Except String TestResult := do
  let context : Option String := if withContext then some q.contextText else none
  let (resp, rt) ← query modelId (prompt q.text context)
  let grades ← gradeFn q.text resp context rt
  match TestResult.mk? modelId q.number q.text withContext resp rt grades with
  | some r => Except.ok r
  | none => Except.error "ValidationError"

/-- One cell of `main`'s loop: skip it when its identity key is in the
resume set; otherwise run the test and append the result, swallowing
(logging) any exception. -/
def processCell (existing : List (String × ℤ × Bool))
    (acc : List TestResult) (modelId : String) (q : PyQuestion)
    (withContext : Bool) : List TestResult :=
  if (modelId, q.number, withContext) ∈ existing then acc
  else
    match run_single_test query gradeFn prompt modelId q withContext with
    | Except.ok r => acc ++ [r]
    | Except.error _ => acc

/-- The doubly nested loop of `main`: models outside, questions inside,
context `False` then `True`; the returned list is the sequence of rows
appended to the store. -/
def mainLoop (existing : List (String × ℤ × Bool)) (models : List String)
    (questions : List PyQuestion) : List TestResult :=
  models.foldl
    (fun acc m =>
      questions.foldl
        (fun acc q =>
          processCell query gradeFn prompt existing
            (processCell query gradeFn prompt existing acc m q false)
            m q true)
        acc)
    []

/-- What one cell contributes on its own: nothing when skipped or
failed, its single result when the test runs and succeeds. -/
def cellResults (existing : List (String × ℤ × Bool)) (modelId : String)
    (q : PyQuestion) (withContext : Bool) : List TestResult :=
  if (modelId, q.number, withContext) ∈ existing then []
  else
    match run_single_test query gradeFn prompt modelId q withContext with
    | Except.ok r => [r]
    | Except.error _ => []

end Orchestrator

/-! ## Helper lemmas for the claims -/

theorem pyRound2_exact {q : ℚ} (hz : ∃ z : ℤ, (z : ℚ) = q * 100) :
    pyRound2 q = q := by
  obtain ⟨z, hz⟩ := hz
  rw [pyRound2, ← hz, rndHE_intCast]
  rw [eq_comm, eq_div_iff (by norm_num : (100 : ℚ) ≠ 0)]
  linarith [hz]

theorem clampScore_nonneg (v : ℤ) : 0 ≤ clampScore v := by
  unfold clampScore
  omega

theorem clampScore_le (v : ℤ) : clampScore v ≤ 100 := by
  unfold clampScore
  omega

/-! ## The claims -/

/-- C5: for every grade breakdown (with fields in the validated range
`[0,100]`), the derived weighted score equals
`round(accuracy*0.5 + completeness*0.25 + clarity*0.25, 2)`, which is
exact (`4 * weightedScore = 2*accuracy + completeness + clarity`, so no
rounding error occurs) and lies in `[0, 100]`; and
`weightedScore(accuracy=80, completeness=70, clarity=60) = 72.5`
exactly. -/
theorem claim_C5_weighted_score :
    (∀ g : GradeBreakdown,
      0 ≤ g.accuracy → g.accuracy ≤ 100 →
      0 ≤ g.completeness → g.completeness ≤ 100 →
      0 ≤ g.clarity → g.clarity ≤ 100 →
      g.weighted_score = pyRound2 ((g.accuracy : ℚ) * (1/2)
          + (g.completeness : ℚ) * (1/4) + (g.clarity : ℚ) * (1/4))
      ∧ 4 * g.weighted_score
          = 2 * (g.accuracy : ℚ) + (g.completeness : ℚ) + (g.clarity : ℚ)
      ∧ 0 ≤ g.weighted_score ∧ g.weighted_score ≤ 100)
    ∧ GradeBreakdown.weighted_score ⟨80, 70, 60, ""⟩ = 145/2 := by
  have key : ∀ g : GradeBreakdown,
      g.weighted_score = (g.accuracy : ℚ) * (1/2)
        + (g.completeness : ℚ) * (1/4) + (g.clarity : ℚ) * (1/4) := by
    intro g
    refine pyRound2_exact ⟨50 * g.accuracy + 25 * g.completeness
      + 25 * g.clarity, ?_⟩
    push_cast
    ring
  constructor
  · intro g ha0 ha1 hc0 hc1 hl0 hl1
    have hk := key g
    refine ⟨rfl, by rw [hk]; ring, ?_, ?_⟩
    · rw [hk]
      have : (0 : ℚ) ≤ (g.accuracy : ℚ) := by exact_mod_cast ha0
      have : (0 : ℚ) ≤ (g.completeness : ℚ) := by exact_mod_cast hc0
      have : (0 : ℚ) ≤ (g.clarity : ℚ) := by exact_mod_cast hl0
      linarith
    · rw [hk]
      have : (g.accuracy : ℚ) ≤ 100 := by exact_mod_cast ha1
      have : (g.completeness : ℚ) ≤ 100 := by exact_mod_cast hc1
      have : (g.clarity : ℚ) ≤ 100 := by exact_mod_cast hl1
      linarith
  · rw [key ⟨80, 70, 60, ""⟩]
    norm_num

/-- C5 witness: the general statement instantiated at the grade
breakdown `(80, 70, 60)`. -/
theorem claim_C5_weighted_score_witness :
    (0 : ℤ) ≤ 80 ∧
    (GradeBreakdown.weighted_score ⟨80, 70, 60, ""⟩
        = pyRound2 ((80 : ℚ) * (1/2) + (70 : ℚ) * (1/4) + (60 : ℚ) * (1/4))
      ∧ 4 * GradeBreakdown.weighted_score ⟨80, 70, 60, ""⟩
        = 2 * (80 : ℚ) + (70 : ℚ) + (60 : ℚ)
      ∧ 0 ≤ GradeBreakdown.weighted_score ⟨80, 70, 60, ""⟩
      ∧ GradeBreakdown.weighted_score ⟨80, 70, 60, ""⟩ ≤ 100) :=
  ⟨by norm_num,
    claim_C5_weighted_score.1 ⟨80, 70, 60, ""⟩ (by norm_num) (by norm_num)
      (by norm_num) (by norm_num) (by norm_num) (by norm_num)⟩

/-- C10: pydantic construction of a `GradeBreakdown` fails (raises a
validation error, i.e. returns `none`) whenever any of the three scores
is outside `[0,100]` — it never clamps — and every successfully
constructed breakdown has its fields exactly as passed and within
bounds. -/
theorem claim_C10_construction_validates :
    ∀ (a c l : ℤ) (e : String),
      ((0 > a ∨ a > 100 ∨ 0 > c ∨ c > 100 ∨ 0 > l ∨ l > 100) →
        GradeBreakdown.mk? a c l e = none)
      ∧ (∀ g, GradeBreakdown.mk? a c l e = some g →
          g.accuracy = a ∧ g.completeness = c ∧ g.clarity = l
          ∧ g.explanation = e
          ∧ 0 ≤ g.accuracy ∧ g.accuracy ≤ 100
          ∧ 0 ≤ g.completeness ∧ g.completeness ≤ 100
          ∧ 0 ≤ g.clarity ∧ g.clarity ≤ 100) := by
  intro a c l e
  constructor
  · intro h
    rw [GradeBreakdown.mk?, if_neg (by omega)]
  · intro g hg
    rw [GradeBreakdown.mk?] at hg
    by_cases hcond : 0 ≤ a ∧ a ≤ 100 ∧ 0 ≤ c ∧ c ≤ 100 ∧ 0 ≤ l ∧ l ≤ 100
    · rw [if_pos hcond] at hg
      obtain ⟨ha0, ha1, hc0, hc1, hl0, hl1⟩ := hcond
      cases hg
      exact ⟨rfl, rfl, rfl, rfl, ha0, ha1, hc0, hc1, hl0, hl1⟩
    · rw [if_neg hcond] at hg
      cases hg

/-- C10 witness: the out-of-range score `-5` makes construction fail. -/
theorem claim_C10_construction_validates_witness :
    ((0 : ℤ) > -5 ∨ (-5 : ℤ) > 100 ∨ (0 : ℤ) > 50 ∨ (50 : ℤ) > 100
      ∨ (0 : ℤ) > 50 ∨ (50 : ℤ) > 100)
    ∧ GradeBreakdown.mk? (-5) 50 50 "" = none :=
  ⟨by decide, (claim_C10_construction_validates (-5) 50 50 "").1 (by decide)⟩

/-- C6: whenever `_parse_grades` succeeds, each of the three reported
scores is the unconditional clamp into `[0,100]` of the integer the
regex extracted for it (negative values become 0, values above 100
become 100); and extraction success alone decides the outcome — an
out-of-range value is never rejected, since whenever all labels are
located the parse succeeds with the clamped values. -/
theorem claim_C6_clamping :
    ∀ t : String,
      (∀ g, parseGrades t = some g →
        ∃ a c l,
          searchLabeledInt "ACCURACY:".toList t.toList = some a ∧
          searchLabeledInt "COMPLETENESS:".toList t.toList = some c ∧
          searchLabeledInt "CLARITY:".toList t.toList = some l ∧
          g.accuracy = clampScore a ∧ g.completeness = clampScore c ∧
          g.clarity = clampScore l ∧
          0 ≤ g.accuracy ∧ g.accuracy ≤ 100 ∧
          0 ≤ g.completeness ∧ g.completeness ≤ 100 ∧
          0 ≤ g.clarity ∧ g.clarity ≤ 100)
      ∧ (∀ a c l rt,
          searchLabeledInt "ACCURACY:".toList t.toList = some a →
          searchLabeledInt "COMPLETENESS:".toList t.toList = some c →
          searchLabeledInt "CLARITY:".toList t.toList = some l →
          searchLabeledInt "RESPONSE_TIME:".toList t.toList = some rt →
          parseGrades t
            = some ⟨clampScore a, clampScore c, clampScore l, ""⟩) := by
  intro t
  have hmk : ∀ a c l : ℤ,
      GradeBreakdown.mk? (clampScore a) (clampScore c) (clampScore l)
        = some ⟨clampScore a, clampScore c, clampScore l, ""⟩ := by
    intro a c l
    rw [GradeBreakdown.mk?,
      if_pos ⟨clampScore_nonneg a, clampScore_le a, clampScore_nonneg c,
        clampScore_le c, clampScore_nonneg l, clampScore_le l⟩]
  constructor
  · intro g hg
    unfold parseGrades at hg
    rcases hA : searchLabeledInt "ACCURACY:".toList t.toList with _ | a
    · rw [hA] at hg
      simp only [Option.bind_eq_bind, Option.none_bind] at hg
      cases hg
    rw [hA] at hg
    simp only [Option.bind_eq_bind, Option.some_bind] at hg
    rcases hB : searchLabeledInt "COMPLETENESS:".toList t.toList with _ | c
    · rw [hB] at hg
      simp only [Option.none_bind] at hg
      cases hg
    rw [hB] at hg
    simp only [Option.some_bind] at hg
    rcases hC : searchLabeledInt "CLARITY:".toList t.toList with _ | l
    · rw [hC] at hg
      simp only [Option.none_bind] at hg
      cases hg
    rw [hC] at hg
    simp only [Option.some_bind] at hg
    rcases hD : searchLabeledInt "RESPONSE_TIME:".toList t.toList with _ | rt
    · rw [hD] at hg
      simp only [Option.none_bind] at hg
      cases hg
    rw [hD] at hg
    simp only [Option.some_bind] at hg
    rw [hmk a c l] at hg
    cases hg
    exact ⟨a, c, l, rfl, rfl, rfl, rfl, rfl, rfl,
      clampScore_nonneg a, clampScore_le a, clampScore_nonneg c,
      clampScore_le c, clampScore_nonneg l, clampScore_le l⟩
  · intro a c l rt hA hB hC hD
    unfold parseGrades
    simp only [hA, hB, hC, hD, Option.bind_eq_bind, Option.some_bind]
    exact hmk a c l

/-- C6 witness: the out-of-range extractions `150` and `-5` are clamped
to `100` and `0` in a successful parse. -/
theorem claim_C6_clamping_witness :
    parseGrades "ACCURACY: 150\nCOMPLETENESS: 50\nCLARITY: -5\nRESPONSE_TIME: 120"
        = some ⟨100, 50, 0, ""⟩
    ∧ ∃ a c l,
        searchLabeledInt "ACCURACY:".toList
          "ACCURACY: 150\nCOMPLETENESS: 50\nCLARITY: -5\nRESPONSE_TIME: 120".toList
          = some a ∧
        searchLabeledInt "COMPLETENESS:".toList
          "ACCURACY: 150\nCOMPLETENESS: 50\nCLARITY: -5\nRESPONSE_TIME: 120".toList
          = some c ∧
        searchLabeledInt "CLARITY:".toList
          "ACCURACY: 150\nCOMPLETENESS: 50\nCLARITY: -5\nRESPONSE_TIME: 120".toList
          = some l ∧
        (100 : ℤ) = clampScore a ∧ (50 : ℤ) = clampScore c ∧
        (0 : ℤ) = clampScore l ∧
        (0 : ℤ) ≤ 100 ∧ (100 : ℤ) ≤ 100 ∧
        (0 : ℤ) ≤ 50 ∧ (50 : ℤ) ≤ 100 ∧
        (0 : ℤ) ≤ 0 ∧ (0 : ℤ) ≤ 100 :=
  ⟨by decide,
    (claim_C6_clamping
        "ACCURACY: 150\nCOMPLETENESS: 50\nCLARITY: -5\nRESPONSE_TIME: 120").1
      ⟨100, 50, 0, ""⟩ (by decide)⟩

/-- C1 (code bug): the grading text of the package's own test
`test_parse_grades_valid_output`, in which all three required fields
(accuracy, completeness, clarity) are present.  The claim (and the
test) say the parse succeeds, but `_parse_grades` additionally demands a
`RESPONSE_TIME:` field and raises `ValueError` here: the code
contradicts its own test suite. -/
theorem claim_C1_parse_requires_fourth_field :
    searchLabeledInt "ACCURACY:".toList
        "\nACCURACY: 85\nCOMPLETENESS: 75\nCLARITY: 80\n\nJustification: The response was accurate and clear...\n".toList
      = some 85
    ∧ searchLabeledInt "COMPLETENESS:".toList
        "\nACCURACY: 85\nCOMPLETENESS: 75\nCLARITY: 80\n\nJustification: The response was accurate and clear...\n".toList
      = some 75
    ∧ searchLabeledInt "CLARITY:".toList
        "\nACCURACY: 85\nCOMPLETENESS: 75\nCLARITY: 80\n\nJustification: The response was accurate and clear...\n".toList
      = some 80
    ∧ parseGrades
        "\nACCURACY: 85\nCOMPLETENESS: 75\nCLARITY: 80\n\nJustification: The response was accurate and clear...\n"
      = none := by
  decide

/-- C2 (code bug): a grading text that parses successfully (all four
fields present) and carries a free-text justification afterwards.  The
claim (and the test `test_parse_grades_includes_explanation`) say the
explanation field holds the first non-empty line of that free text
(truncated to 200 characters), but `_parse_grades` never extracts any
explanation — there is no `_extract_explanation` in the source although
`tests/test_gemini_grader.py` imports one — so the field is pydantic's
default `""`. -/
theorem claim_C2_no_explanation_extracted :
    parseGrades
        "\nACCURACY: 85\nCOMPLETENESS: 75\nCLARITY: 80\nRESPONSE_TIME: 90\n\nThe response was accurate but lacked some detail.\n"
      = some ⟨85, 75, 80, ""⟩ := by
  decide

/-- C9: `write_results_to_csv` on an empty collection is a no-op — it
neither creates an absent file nor modifies an existing one — and on a
non-empty collection rewrites the file from scratch as the header plus
one row per result in the given order. -/
theorem claim_C9_writeAll_empty_noop :
    (∀ f, write_results_to_csv [] f = f)
    ∧ write_results_to_csv [] none = none
    ∧ (∀ c, write_results_to_csv [] (some c) = some c)
    ∧ (∀ rs f, rs ≠ [] →
        write_results_to_csv rs f
          = some (CSV_FIELDNAMES :: rs.map toCsvRow)) := by
  refine ⟨fun f => rfl, rfl, fun c => rfl, ?_⟩
  intro rs f hrs
  rw [write_results_to_csv, if_neg hrs]

/-- C9 witness: a one-element collection rewrites an existing file from
scratch. -/
theorem claim_C9_writeAll_empty_noop_witness :
    ([(⟨"m", 1, "", false, "", 1, ⟨50, 50, 50, ""⟩, 0⟩ : TestResult)] ≠ [])
    ∧ write_results_to_csv
        [(⟨"m", 1, "", false, "", 1, ⟨50, 50, 50, ""⟩, 0⟩ : TestResult)]
        (some [["junk"]])
      = some (CSV_FIELDNAMES
          :: [(⟨"m", 1, "", false, "", 1, ⟨50, 50, 50, ""⟩, 0⟩ :
                TestResult)].map toCsvRow) :=
  ⟨List.cons_ne_nil _ _,
    claim_C9_writeAll_empty_noop.2.2.2 _ _ (List.cons_ne_nil _ _)⟩

/-- C8: `load_existing_results` yields the empty set for an absent (or
unreadable, modelled as absent) file and for any file in which some row
fails to parse; for a file whose rows all yield identity keys it yields
exactly the SET of those triples, so duplicate rows collapse. -/
theorem claim_C8_loadExistingKeys :
    load_existing_results none = ∅
    ∧ (∀ rows ks, List.mapM' (parseKeyRow CSV_FIELDNAMES) rows = some ks →
        load_existing_results (some (CSV_FIELDNAMES :: rows)) = ks.toFinset)
    ∧ (∀ rows, List.mapM' (parseKeyRow CSV_FIELDNAMES) rows = none →
        load_existing_results (some (CSV_FIELDNAMES :: rows)) = ∅) := by
  have hred : ∀ rows : List (List String),
      load_existing_results (some (CSV_FIELDNAMES :: rows))
        = match List.mapM' (parseKeyRow CSV_FIELDNAMES) rows with
          | some ks => ks.toFinset
          | none => ∅ := fun rows => rfl
  refine ⟨rfl, ?_, ?_⟩
  · intro rows ks h
    rw [hred rows, h]
  · intro rows h
    rw [hred rows, h]

/-- C8 witness: the resume scenario of the spec — rows for
`(m1, 1, False)` and `(m1, 1, True)` appended twice each collapse to
exactly those two triples. -/
theorem claim_C8_loadExistingKeys_witness :
    [["m1", "Q1", "No", "80", "70", "60", "1.0", "72.5", "0.0", ""],
     ["m1", "Q1", "Yes", "90", "80", "70", "2.0", "82.5", "0.0", ""],
     ["m1", "Q1", "No", "80", "70", "60", "1.0", "72.5", "0.0", ""],
     ["m1", "Q1", "Yes", "90", "80", "70", "2.0", "82.5", "0.0", ""]].mapM'
        (parseKeyRow CSV_FIELDNAMES)
      = some [("m1", 1, false), ("m1", 1, true),
              ("m1", 1, false), ("m1", 1, true)]
    ∧ load_existing_results (some (CSV_FIELDNAMES ::
        [["m1", "Q1", "No", "80", "70", "60", "1.0", "72.5", "0.0", ""],
         ["m1", "Q1", "Yes", "90", "80", "70", "2.0", "82.5", "0.0", ""],
         ["m1", "Q1", "No", "80", "70", "60", "1.0", "72.5", "0.0", ""],
         ["m1", "Q1", "Yes", "90", "80", "70", "2.0", "82.5", "0.0", ""]]))
      = ({("m1", 1, false), ("m1", 1, true)} : Finset (String × ℤ × Bool)) :=
  ⟨by decide, by
    rw [claim_C8_loadExistingKeys.2.1 _
      [("m1", 1, false), ("m1", 1, true), ("m1", 1, false), ("m1", 1, true)]
      (by decide)]
    decide⟩

/-! ### C7: append/load round trip -/

/-- The invariant every `TestResult` built through the pydantic
validators satisfies: scores in `[0,100]` and a non-negative response
time. -/
def ValidTR (r : TestResult) : Prop :=
  0 ≤ r.grades.accuracy ∧ r.grades.accuracy ≤ 100
  ∧ 0 ≤ r.grades.completeness ∧ r.grades.completeness ≤ 100
  ∧ 0 ≤ r.grades.clarity ∧ r.grades.clarity ≤ 100
  ∧ 0 ≤ r.response_time

instance : DecidablePred ValidTR := fun r => by
  unfold ValidTR
  infer_instance

/-- The fields the round-trip claim is about: model name, question
number, context flag and the three sub-scores. -/
def projKey (r : TestResult) : String × ℤ × Bool × ℤ × ℤ × ℤ :=
  (r.model_name, r.question_number, r.context_provided,
   r.grades.accuracy, r.grades.completeness, r.grades.clarity)

theorem pyRound2_nonneg {q : ℚ} (h : 0 ≤ q) : 0 ≤ pyRound2 q := by
  unfold pyRound2
  apply div_nonneg _ (by norm_num)
  exact_mod_cast rndHE_nonneg (by positivity)

theorem intRender_ne_Q {i : ℤ} : ∀ c ∈ intRender i, c ≠ 'Q' := by
  intro c hc
  have hdig : ∀ d ∈ natDigits i.natAbs, d ≠ 'Q' := by
    intro d hd hQ
    have := natDigits_all_digit i.natAbs d hd
    subst hQ
    simp [isDigitC] at this
  unfold intRender at hc
  split at hc
  · rcases List.mem_cons.mp hc with h | h
    · subst h
      decide
    · exact hdig c h
  · exact hdig c hc

theorem filter_Q_qcell (i : ℤ) :
    ('Q' :: intRender i).filter (fun c => c ≠ 'Q') = intRender i := by
  rw [List.filter_cons]
  have h1 : (decide ('Q' ≠ 'Q')) = false := by decide
  simp only [h1, Bool.false_eq_true, if_false]
  apply List.filter_eq_self.mpr
  intro a ha
  simpa using intRender_ne_Q a ha

theorem ctx_cell_roundtrip (b : Bool) :
    ((if b then "Yes" else "No") == "Yes") = b := by
  cases b <;> decide

set_option maxHeartbeats 2000000 in
/-- Parsing back the row written for a validated result reconstructs the
identity fields and the three sub-scores exactly. -/
theorem parseResultRow_toCsvRow {x : TestResult} (hv : ValidTR x) :
    ∃ y, parseResultRow CSV_FIELDNAMES (toCsvRow x) = some y
      ∧ projKey y = projKey x := by
  obtain ⟨ha0, ha1, hc0, hc1, hl0, hl1, hrt⟩ := hv
  have hL1 : rowLookup CSV_FIELDNAMES (toCsvRow x) "Response time"
      = some (String.mk (renderFloat (pyRound2 x.response_time))) := rfl
  have hL2 : rowLookup CSV_FIELDNAMES (toCsvRow x) "Model Name"
      = some x.model_name := rfl
  have hL3 : rowLookup CSV_FIELDNAMES (toCsvRow x) "Question"
      = some (String.mk ('Q' :: intRender x.question_number)) := rfl
  have hL4 : rowLookup CSV_FIELDNAMES (toCsvRow x) "Context Provided"
      = some (if x.context_provided then "Yes" else "No") := rfl
  have hL5 : rowLookup CSV_FIELDNAMES (toCsvRow x) "Accuracy Score"
      = some (String.mk (intRender x.grades.accuracy)) := rfl
  have hL6 : rowLookup CSV_FIELDNAMES (toCsvRow x) "Completeness Score"
      = some (String.mk (intRender x.grades.completeness)) := rfl
  have hL7 : rowLookup CSV_FIELDNAMES (toCsvRow x) "Clarity Score"
      = some (String.mk (intRender x.grades.clarity)) := rfl
  have hL8 : rowLookup CSV_FIELDNAMES (toCsvRow x) "Percentile Rank"
      = some (String.mk (renderFloat (pyRound1 x.percentile))) := rfl
  have hmkG : GradeBreakdown.mk? x.grades.accuracy x.grades.completeness
      x.grades.clarity = some ⟨x.grades.accuracy, x.grades.completeness,
        x.grades.clarity, ""⟩ := by
    rw [GradeBreakdown.mk?, if_pos ⟨ha0, ha1, hc0, hc1, hl0, hl1⟩]
  have hmkT : TestResult.mk? x.model_name x.question_number ""
      (x.context_provided) "" (pyRound2 (pyRound2 x.response_time))
      ⟨x.grades.accuracy, x.grades.completeness, x.grades.clarity, ""⟩
      (pyRound2 (pyRound1 x.percentile))
      = some ⟨x.model_name, x.question_number, "", x.context_provided, "",
          pyRound2 (pyRound2 x.response_time),
          ⟨x.grades.accuracy, x.grades.completeness, x.grades.clarity, ""⟩,
          pyRound2 (pyRound1 x.percentile)⟩ := by
    rw [TestResult.mk?, if_pos (pyRound2_nonneg (pyRound2_nonneg hrt))]
  refine ⟨⟨x.model_name, x.question_number, "", x.context_provided, "",
      pyRound2 (pyRound2 x.response_time),
      ⟨x.grades.accuracy, x.grades.completeness, x.grades.clarity, ""⟩,
      pyRound2 (pyRound1 x.percentile)⟩, ?_, rfl⟩
  unfold parseResultRow
  rw [hL1]
  simp only [Option.bind_eq_bind, Option.some_bind]
  rw [show (String.mk (renderFloat (pyRound2 x.response_time))).toList
      = renderFloat (pyRound2 x.response_time) from rfl,
    parseFloat_renderFloat]
  simp only [Option.some_bind]
  rw [hL2]
  simp only [Option.some_bind]
  rw [hL3]
  simp only [Option.some_bind]
  rw [show (String.mk ('Q' :: intRender x.question_number)).toList
      = 'Q' :: intRender x.question_number from rfl,
    filter_Q_qcell, pyInt_intRender]
  simp only [Option.some_bind]
  rw [hL4]
  simp only [Option.some_bind]
  rw [hL5]
  simp only [Option.some_bind]
  rw [show (String.mk (intRender x.grades.accuracy)).toList
      = intRender x.grades.accuracy from rfl, pyInt_intRender]
  simp only [Option.some_bind]
  rw [hL6]
  simp only [Option.some_bind]
  rw [show (String.mk (intRender x.grades.completeness)).toList
      = intRender x.grades.completeness from rfl, pyInt_intRender]
  simp only [Option.some_bind]
  rw [hL7]
  simp only [Option.some_bind]
  rw [show (String.mk (intRender x.grades.clarity)).toList
      = intRender x.grades.clarity from rfl, pyInt_intRender]
  simp only [Option.some_bind]
  rw [hL8]
  rw [show pctCellValue (some (String.mk (renderFloat (pyRound1 x.percentile))))
      = parseFloat (renderFloat (pyRound1 x.percentile)) from rfl,
    parseFloat_renderFloat]
  simp only [Option.some_bind]
  rw [hmkG]
  simp only [Option.some_bind]
  rw [ctx_cell_roundtrip]
  exact hmkT

/-- Row-by-row reconstruction over a whole file of validated rows. -/
theorem mapM_parseResultRow :
    ∀ (rs : List TestResult), (∀ x ∈ rs, ValidTR x) →
      ∃ ys, List.mapM' (parseResultRow CSV_FIELDNAMES) (rs.map toCsvRow)
          = some ys
        ∧ ys.map projKey = rs.map projKey := by
  intro rs
  induction rs with
  | nil => exact fun _ => ⟨[], rfl, rfl⟩
  | cons r rs ih =>
    intro h
    obtain ⟨y, hy, hk⟩ := parseResultRow_toCsvRow (h r (by simp))
    obtain ⟨ys, hys, hks⟩ := ih (fun x hx => h x (by simp [hx]))
    refine ⟨y :: ys, ?_, ?_⟩
    · simp only [List.map_cons, List.mapM', hy, hys, Option.bind_eq_bind,
        Option.some_bind]
      rfl
    · simp [hk, hks]

/-- C7: appending a (validated) result to the store and loading all
results back reconstructs its model name, question number, context flag
and all three sub-scores identically — for the appended result and for
every validated row already in the file. -/
theorem claim_C7_roundtrip :
    ∀ (rs : List TestResult) (r : TestResult),
      (∀ x ∈ rs ++ [r], ValidTR x) →
      (load_all_results (append_result_to_csv r
          (some (CSV_FIELDNAMES :: rs.map toCsvRow)))).map projKey
        = (rs ++ [r]).map projKey := by
  intro rs r h
  have happ : append_result_to_csv r (some (CSV_FIELDNAMES :: rs.map toCsvRow))
      = some (CSV_FIELDNAMES :: (rs ++ [r]).map toCsvRow) := by
    unfold append_result_to_csv
    simp [List.map_append, List.cons_append]
  rw [happ]
  obtain ⟨ys, hys, hk⟩ := mapM_parseResultRow (rs ++ [r]) h
  have hred : load_all_results
      (some (CSV_FIELDNAMES :: (rs ++ [r]).map toCsvRow))
      = match List.mapM' (parseResultRow CSV_FIELDNAMES)
          ((rs ++ [r]).map toCsvRow) with
        | some rs' => rs'
        | none => [] := rfl
  rw [hred, hys]
  exact hk

/-- C7 witness: the round trip at a concrete one-row append. -/
theorem claim_C7_roundtrip_witness :
    (∀ x ∈ ([] : List TestResult)
        ++ [(⟨"m1", 3, "", true, "", 3/2, ⟨88, 77, 66, "ok"⟩, 0⟩ : TestResult)],
      ValidTR x)
    ∧ (load_all_results (append_result_to_csv
          (⟨"m1", 3, "", true, "", 3/2, ⟨88, 77, 66, "ok"⟩, 0⟩ : TestResult)
          (some (CSV_FIELDNAMES
            :: ([] : List TestResult).map toCsvRow)))).map projKey
      = (([] : List TestResult)
          ++ [(⟨"m1", 3, "", true, "", 3/2, ⟨88, 77, 66, "ok"⟩, 0⟩ :
                TestResult)]).map projKey := by
  have hval : ∀ x ∈ ([] : List TestResult)
      ++ [(⟨"m1", 3, "", true, "", 3/2, ⟨88, 77, 66, "ok"⟩, 0⟩ : TestResult)],
      ValidTR x := by
    intro x hx
    simp only [List.nil_append, List.mem_singleton] at hx
    subst hx
    exact ⟨by norm_num, by norm_num, by norm_num, by norm_num, by norm_num,
      by norm_num, by norm_num⟩
  exact ⟨hval, claim_C7_roundtrip [] _ hval⟩

/-! ### C3: the orchestrator's per-cell protocol -/

section OrchestratorProofs

variable (query : String → String → Except String (String × ℚ))
variable (gradeFn : String → String → Option String → ℚ → Except String GradeBreakdown)
variable (prompt : String → Option String → String)
variable (existing : List (String × ℤ × Bool))

theorem processCell_eq (acc : List TestResult) (m : String) (q : PyQuestion)
    (b : Bool) :
    processCell query gradeFn prompt existing acc m q b
      = acc ++ cellResults query gradeFn prompt existing m q b := by
  unfold processCell cellResults
  split
  · simp
  · cases run_single_test query gradeFn prompt m q b <;> simp

theorem foldl_accumulates {β : Type} (f : β → List TestResult)
    (F : List TestResult → β → List TestResult)
    (hF : ∀ acc b, F acc b = acc ++ f b) :
    ∀ (l : List β) (acc : List TestResult),
      l.foldl F acc = acc ++ l.bind f := by
  intro l
  induction l with
  | nil => intro acc; simp
  | cons b l ih =>
    intro acc
    rw [List.foldl_cons, hF, ih, List.append_assoc]
    congr 1

/-- C3: the orchestrator's appended-results sequence is exactly the
concatenation, over the enumerated cross product
models x questions x (context false, then true), of each cell's own
contribution: nothing when the cell's identity key is in the resume set
(no work is done), nothing when running the cell raises (the exception
is caught and the remaining cells still processed), and exactly the
assembled result — appended immediately, before the next cell — when
the cell's query-grade-assemble pipeline succeeds. -/
theorem claim_C3_orchestrator_cells :
    ∀ (query : String → String → Except String (String × ℚ))
      (gradeFn : String → String → Option String → ℚ → Except String GradeBreakdown)
      (prompt : String → Option String → String)
      (existing : List (String × ℤ × Bool))
      (models : List String) (questions : List PyQuestion),
      mainLoop query gradeFn prompt existing models questions
        = models.bind (fun m => questions.bind (fun q =>
            cellResults query gradeFn prompt existing m q false
              ++ cellResults query gradeFn prompt existing m q true)) := by
  intro query gradeFn prompt existing models questions
  unfold mainLoop
  rw [foldl_accumulates
    (fun m => questions.bind (fun q =>
      cellResults query gradeFn prompt existing m q false
        ++ cellResults query gradeFn prompt existing m q true))
    _ ?_ models []]
  · rw [List.nil_append]
  · intro acc m
    rw [foldl_accumulates
      (fun q => cellResults query gradeFn prompt existing m q false
        ++ cellResults query gradeFn prompt existing m q true)
      _ ?_ questions acc]
    intro acc' q
    rw [processCell_eq, processCell_eq, List.append_assoc]

end OrchestratorProofs

/-! ### C4: the percentile annotation -/

instance : IsTotal TestResult (fun a b => a.total_score ≤ b.total_score) :=
  ⟨fun _ _ => le_total _ _⟩

instance : IsTrans TestResult (fun a b => a.total_score ≤ b.total_score) :=
  ⟨fun _ _ _ h1 h2 => le_trans h1 h2⟩

theorem pyRound1_exact {q : ℚ} (hz : ∃ z : ℤ, (z : ℚ) = q * 10) :
    pyRound1 q = q := by
  obtain ⟨z, hz⟩ := hz
  rw [pyRound1, ← hz, rndHE_intCast]
  rw [eq_comm, eq_div_iff (by norm_num : (10 : ℚ) ≠ 0)]
  linarith [hz]

theorem rndHE_eq_of_lt_half {q : ℚ} (f : ℤ) (h1 : (f : ℚ) ≤ q)
    (h2 : q - f < 1/2) : rndHE q = f := by
  have hf : ⌊q⌋ = f := Int.floor_eq_iff.mpr ⟨h1, by push_cast; linarith⟩
  rw [rndHE_eq_floor_form, hf, if_pos h2]

theorem rndHE_eq_of_gt_half {q : ℚ} (f : ℤ) (h1 : (f : ℚ) ≤ q)
    (h2 : 1/2 < q - f) (h3 : q < f + 1) : rndHE q = f + 1 := by
  have hf : ⌊q⌋ = f := Int.floor_eq_iff.mpr ⟨h1, by push_cast; linarith⟩
  rw [rndHE_eq_floor_form, hf, if_neg (by linarith), if_pos h2]

theorem pctAt_not_lt {n i : ℕ} (h : ¬ 1 < n) : pctAt n i = 50 := by
  rw [pctAt, if_neg h]
  exact pyRound1_exact ⟨500, by norm_num⟩

theorem pctAt_zero {n : ℕ} (h : 1 < n) : pctAt n 0 = 0 := by
  rw [pctAt, if_pos h]
  norm_num
  exact pyRound1_exact ⟨0, by norm_num⟩

theorem pctAt_last {n : ℕ} (h : 1 < n) : pctAt n (n - 1) = 100 := by
  rw [pctAt, if_pos h]
  have hn : (1 : ℚ) < (n : ℚ) := by exact_mod_cast h
  have hcast : ((n - 1 : ℕ) : ℚ) = (n : ℚ) - 1 := by
    have : 1 ≤ n := by omega
    push_cast [Nat.cast_sub this]
    ring
  rw [hcast, div_self (by linarith), one_mul]
  exact pyRound1_exact ⟨1000, by norm_num⟩

theorem pctAt_mono {n : ℕ} {i j : ℕ} (hij : i ≤ j) : pctAt n i ≤ pctAt n j := by
  unfold pctAt pyRound1
  by_cases h : 1 < n
  · rw [if_pos h, if_pos h]
    have hn : (1 : ℚ) < (n : ℚ) := by exact_mod_cast h
    have hd : (0 : ℚ) < (n : ℚ) - 1 := by linarith
    have hij' : (i : ℚ) ≤ (j : ℚ) := by exact_mod_cast hij
    have harg : (i : ℚ) / ((n : ℚ) - 1) * 100 * 10
        ≤ (j : ℚ) / ((n : ℚ) - 1) * 100 * 10 := by
      have := (div_le_div_iff_of_pos_right hd).mpr hij'
      linarith
    have := rndHE_mono harg
    have hcast : ((rndHE ((i : ℚ) / ((n : ℚ) - 1) * 100 * 10)) : ℚ)
        ≤ ((rndHE ((j : ℚ) / ((n : ℚ) - 1) * 100 * 10)) : ℚ) := by
      exact_mod_cast this
    linarith
  · rw [if_neg h, if_neg h]

theorem pctAt_nonneg (n i : ℕ) : 0 ≤ pctAt n i := by
  have h0 : pctAt n 0 ≤ pctAt n i := pctAt_mono (Nat.zero_le i)
  by_cases h : 1 < n
  · rw [pctAt_zero h] at h0
    exact h0
  · rw [pctAt_not_lt h]
    norm_num

theorem pctAt_le_100 {n i : ℕ} (hi : i < n) : pctAt n i ≤ 100 := by
  by_cases h : 1 < n
  · have hlast : pctAt n i ≤ pctAt n (n - 1) := pctAt_mono (by omega)
    rw [pctAt_last h] at hlast
    exact hlast
  · rw [pctAt_not_lt h]
    norm_num

/-- The conjunction of properties the (amended) claim C4 asserts about a
non-empty population: the output is the stably sorted population with
rank `i` of `n` annotated `round((i / (n-1)) * 100, 1)` (`50.0` when
`n = 1`); it is ascending in weighted score; the percentiles are
monotonically non-decreasing along it; and for `n > 1` the values `0.0`
and `100.0` are attained and every percentile lies in `[0, 100]`. -/
def percentileSpec (results : List TestResult) : Prop :=
  let sorted := results.insertionSort (fun a b => a.total_score ≤ b.total_score)
  let n := sorted.length
  let out := calculate_percentiles results
  out = sorted.enum.map (fun p => { p.2 with percentile := pctAt n p.1 })
  ∧ List.Sorted (fun a b : TestResult => a.total_score ≤ b.total_score) out
  ∧ List.Sorted (· ≤ ·) (out.map TestResult.percentile)
  ∧ (n = 1 → out.map TestResult.percentile = [50])
  ∧ (1 < n →
      (0 : ℚ) ∈ out.map TestResult.percentile
      ∧ (100 : ℚ) ∈ out.map TestResult.percentile
      ∧ ∀ p ∈ out.map TestResult.percentile, 0 ≤ p ∧ p ≤ 100)

/-- C4 (amended): for every non-empty population the percentile
annotation behaves as `percentileSpec` describes.  (The original claim's
"tied scores receive different percentiles" is dropped: it fails for
populations larger than 1001, see the counterexample.) -/
theorem claim_C4_percentiles_amended :
    ∀ results : List TestResult, results ≠ [] → percentileSpec results := by
  intro results hne
  rcases results with _ | ⟨r, rs⟩
  · exact absurd rfl hne
  unfold percentileSpec
  set sorted := (r :: rs).insertionSort
    (fun a b => a.total_score ≤ b.total_score) with hsorted
  have hout : calculate_percentiles (r :: rs)
      = sorted.enum.map
          (fun p => { p.2 with percentile := pctAt sorted.length p.1 }) := rfl
  have hsort : List.Sorted (fun a b : TestResult =>
      a.total_score ≤ b.total_score) sorted :=
    List.sorted_insertionSort _ _
  have henum : List.Pairwise (fun p q : ℕ × TestResult =>
      p.2.total_score ≤ q.2.total_score) sorted.enum := by
    have h1 := hsort
    rw [List.Sorted, ← List.enum_map_snd sorted, List.pairwise_map] at h1
    exact h1
  have hmap : (calculate_percentiles (r :: rs)).map TestResult.percentile
      = (List.range sorted.length).map (pctAt sorted.length) := by
    rw [hout, List.map_map,
      show (TestResult.percentile ∘ fun p : ℕ × TestResult =>
        { p.2 with percentile := pctAt sorted.length p.1 })
        = (pctAt sorted.length ∘ Prod.fst) from rfl,
      ← List.map_map, List.enum_map_fst]
  refine ⟨hout, ?_, ?_, ?_, ?_⟩
  · rw [hout, List.Sorted, List.pairwise_map]
    exact henum
  · rw [List.Sorted, hmap, List.pairwise_map]
    exact (List.pairwise_lt_range sorted.length).imp
      (fun hab => pctAt_mono (le_of_lt hab))
  · intro h1
    rw [hmap, h1]
    rw [show List.range 1 = [0] from rfl, List.map_cons, List.map_nil,
      pctAt_not_lt (by omega)]
  · intro h1
    refine ⟨?_, ?_, ?_⟩
    · rw [hmap]
      exact List.mem_map.mpr ⟨0, List.mem_range.mpr (by omega), pctAt_zero h1⟩
    · rw [hmap]
      exact List.mem_map.mpr ⟨sorted.length - 1, List.mem_range.mpr (by omega),
        pctAt_last h1⟩
    · rw [hmap]
      intro p hp
      obtain ⟨i, hi, rfl⟩ := List.mem_map.mp hp
      exact ⟨pctAt_nonneg sorted.length i,
        pctAt_le_100 (List.mem_range.mp hi)⟩

/-- C4 witness: the single-element population, where the annotation is
the midpoint 50.0. -/
theorem claim_C4_percentiles_amended_witness :
    ([(⟨"m", 1, "", false, "", 1, ⟨50, 50, 50, ""⟩, 0⟩ : TestResult)] ≠ [])
    ∧ percentileSpec
        [(⟨"m", 1, "", false, "", 1, ⟨50, 50, 50, ""⟩, 0⟩ : TestResult)] :=
  ⟨List.cons_ne_nil _ _,
    claim_C4_percentiles_amended _ (List.cons_ne_nil _ _)⟩

/-- The all-identical population used to refute the original tie
clause of C4. -/
def cxR : TestResult := ⟨"m", 1, "", false, "", 0, ⟨50, 50, 50, ""⟩, 0⟩

theorem orderedInsert_replicate (x : TestResult) (k : ℕ) :
    (List.replicate k x).orderedInsert
        (fun a b => a.total_score ≤ b.total_score) x
      = x :: List.replicate k x := by
  cases k with
  | zero => rfl
  | succ k =>
    rw [List.replicate_succ, List.orderedInsert,
      if_pos (le_refl x.total_score)]

theorem insertionSort_replicate (x : TestResult) :
    ∀ k, List.insertionSort (fun a b => a.total_score ≤ b.total_score)
        (List.replicate k x)
      = List.replicate k x := by
  intro k
  induction k with
  | zero => rfl
  | succ k ih =>
    rw [List.replicate_succ, List.insertionSort, ih,
      orderedInsert_replicate, ← List.replicate_succ]

theorem get?_replicate_lt {α : Type} (a : α) {n i : ℕ} (h : i < n) :
    (List.replicate n a).get? i = some a := by
  simp [List.get?_eq_getElem?, List.getElem?_replicate, h]

theorem pctAt_1002_500 : pctAt 1002 500 = 50 := by
  have harg : pctAt 1002 500
      = ((rndHE ((500 : ℚ) / 1001 * 100 * 10)) : ℚ) / 10 := by
    rw [pctAt, if_pos (by omega), pyRound1]
    norm_num
  rw [harg, rndHE_eq_of_gt_half 499 (by norm_num) (by norm_num)
    (by norm_num)]
  norm_num

theorem pctAt_1002_501 : pctAt 1002 501 = 50 := by
  have harg : pctAt 1002 501
      = ((rndHE ((501 : ℚ) / 1001 * 100 * 10)) : ℚ) / 10 := by
    rw [pctAt, if_pos (by omega), pyRound1]
    norm_num
  rw [harg, rndHE_eq_of_lt_half 500 (by norm_num) (by norm_num)]
  norm_num

/-- C4 (counterexample to the original tie clause): in a population of
1002 results with identical weighted scores, the items at ranks 500 and
501 — tied scores, distinct ranks in the stable order — both receive
the percentile 50.0, so tied scores do NOT always receive different
percentiles. -/
theorem calculate_percentiles_cons (x : TestResult) (xs : List TestResult) :
    calculate_percentiles (x :: xs)
      = ((x :: xs).insertionSort
          (fun a b => a.total_score ≤ b.total_score)).enum.map
          (fun p =>
            { p.2 with
              percentile := pctAt ((x :: xs).insertionSort
                (fun a b => a.total_score ≤ b.total_score)).length p.1 }) :=
  rfl

theorem claim_C4_counterexample_ties :
    (calculate_percentiles (List.replicate 1002 cxR)).get? 500
        = some { cxR with percentile := 50 }
    ∧ (calculate_percentiles (List.replicate 1002 cxR)).get? 501
        = some { cxR with percentile := 50 } := by
  have hrep : List.replicate 1002 cxR = cxR :: List.replicate 1001 cxR := by
    rw [show (1002 : ℕ) = 1001 + 1 from rfl, List.replicate_succ]
  have hout : calculate_percentiles (List.replicate 1002 cxR)
      = (List.replicate 1002 cxR).enum.map
          (fun p => { p.2 with percentile := pctAt 1002 p.1 }) := by
    rw [hrep, calculate_percentiles_cons, ← hrep,
      insertionSort_replicate cxR 1002, List.length_replicate]
  constructor
  · rw [hout, List.get?_map, List.get?_enum,
      get?_replicate_lt cxR (by omega : (500 : ℕ) < 1002)]
    simp only [Option.map_some']
    rw [pctAt_1002_500]
  · rw [hout, List.get?_map, List.get?_enum,
      get?_replicate_lt cxR (by omega : (501 : ℕ) < 1002)]
    simp only [Option.map_some']
    rw [pctAt_1002_501]

end Modelgrader
